import Mathlib

/-!
Verification of the LeanEdge-RL core interface (`cshim/include/leanrl.hpp`).

The header declares the value types `Obs4` and `Action2`, the environment
state machine `Env4x2`, the factory `create_env4x2`, the utility templates
`to_array` / `to_vector`, and the `LEANRL_ASSERT_OK` error macro. Only the
templates and the macro carry implementation bodies in the header; every
member function of `Obs4`, `Action2` and `Env4x2` is declared behind an
opaque-pointer wall, so those behaviors are modelled here from the written
specification, faithful to its words. Float components are modelled as
rational numbers, byte blobs as lists of naturals, and the opaque policy
adapter as an explicit function parameter, exactly as the specification
treats it (an opaque pure function from weights and an observation to an
action, plus a validation capability).
-/

namespace LeanRL

/-- Modelled from the spec: the error kinds named by the error-handling
design (InvalidWeights, OutOfRange, PolicyError / AdapterError,
AllocationFailure). The header itself only declares a single throwing
macro; the kinds come from the specification text. -/
inductive Err where
  | InvalidWeights
  | OutOfRange
  | PolicyError
  | AdapterError
  | AllocationFailure
deriving DecidableEq, Repr

/-- Embedding of the C++ `std::system_error` payload thrown by the
`LEANRL_ASSERT_OK` macro: an integer error code, an error category and a
message string. -/
structure SystemError where
  code : Int
  category : String
  message : String
deriving DecidableEq, Repr

/-- Embedding of the `LEANRL_ASSERT_OK(x)` macro from the header: when the
checked condition is false it throws
`std::system_error(std::error_code(-1, std::system_category()), "LeanRL operation failed")`;
when the condition is true it does nothing. -/
def LEANRL_ASSERT_OK (cond : Bool) : Except SystemError Unit :=
  if cond then Except.ok ()
  else Except.error (SystemError.mk (-1) "system" "LeanRL operation failed")

/-- Modelled from the spec: `Obs4` is an ordered sequence of exactly 4
float components (floats modelled as rationals), a pure data carrier. -/
structure Obs4 where
  c0 : ℚ
  c1 : ℚ
  c2 : ℚ
  c3 : ℚ
deriving DecidableEq, Repr

/-- Modelled from the spec: `Action2` is an ordered sequence of exactly 2
float components (floats modelled as rationals). -/
structure Action2 where
  c0 : ℚ
  c1 : ℚ
deriving DecidableEq, Repr

/-- Modelled from the spec: indexed read access on `Obs4` with bounds
`[0, 4)`; an out-of-range index fails with an `OutOfRange` condition. -/
def Obs4.get (o : Obs4) (i : Nat) : Except Err ℚ :=
  match i with
  | 0 => Except.ok o.c0
  | 1 => Except.ok o.c1
  | 2 => Except.ok o.c2
  | 3 => Except.ok o.c3
  | _ => Except.error Err.OutOfRange

/-- Modelled from the spec: indexed read access on `Action2` with bounds
`[0, 2)`; an out-of-range index fails with an `OutOfRange` condition. -/
def Action2.get (a : Action2) (i : Nat) : Except Err ℚ :=
  match i with
  | 0 => Except.ok a.c0
  | 1 => Except.ok a.c1
  | _ => Except.error Err.OutOfRange

/-- Modelled from the spec: `a * scalar` scales every component. -/
def Action2.smulRight (a : Action2) (s : ℚ) : Action2 :=
  Action2.mk (a.c0 * s) (a.c1 * s)

/-- Modelled from the spec: the global operator `scalar * a` scales every
component. -/
def smulLeft (s : ℚ) (a : Action2) : Action2 :=
  Action2.mk (s * a.c0) (s * a.c1)

/-- Modelled from the spec: clamping of a single component into
`[lo, hi]`. -/
def clampVal (x lo hi : ℚ) : ℚ := min (max x lo) hi

/-- Modelled from the spec: `clamp(min, max)` returns a new `Action2` with
each component independently clamped into `[min, max]`. -/
def Action2.clamp (a : Action2) (lo hi : ℚ) : Action2 :=
  Action2.mk (clampVal a.c0 lo hi) (clampVal a.c1 lo hi)

/-- Modelled from the spec: `is_within_bounds(min, max)` is true iff every
component lies in `[min, max]`. -/
def Action2.is_within_bounds (a : Action2) (lo hi : ℚ) : Bool :=
  decide (lo ≤ a.c0 ∧ a.c0 ≤ hi ∧ lo ≤ a.c1 ∧ a.c1 ≤ hi)

/-- Modelled from the spec: policy weights are an opaque arbitrary-length
byte sequence; bytes modelled as naturals since the core never interprets
them. -/
abbrev Weights := List Nat

/-- Modelled from the spec: the external policy adapter, an opaque pure
function taking weights and an observation to an action, together with
the validation capability the construction and weight-update boundaries
delegate to. -/
structure PolicyAdapter where
  eval : Weights → Obs4 → Action2
  accepts : Weights → Bool

/-- Modelled from the spec: the `Env4x2` state holds the weights blob,
the step counter and the episode counter. The u64 counters are modelled
as naturals, matching their specified monotone semantics. -/
structure Env4x2 where
  weights : Weights
  step_count : Nat
  episode_count : Nat
deriving DecidableEq, Repr

/-- Modelled from the spec: weight validation checks the blob is non-empty
and well-formed enough for the policy adapter to accept (validation
delegated to the adapter). -/
def validateWeights (P : PolicyAdapter) (w : Weights) : Bool :=
  !w.isEmpty && P.accepts w

/-- Modelled from the spec: `construct(weights)` validates the blob and on
success starts in `Ready` with `step_count = 0, episode_count = 0`; it
fails with `InvalidWeights` otherwise. This also models the factory
`create_env4x2`. -/
def construct (P : PolicyAdapter) (w : Weights) : Except Err Env4x2 :=
  if validateWeights P w then Except.ok (Env4x2.mk w 0 0)
  else Except.error Err.InvalidWeights

/-- Modelled from the spec: `reset(obs)` increments `episode_count`,
invokes the policy adapter with current weights and `obs`, and returns the
first action of the new episode. It does not reset `step_count`. -/
def Env4x2.reset (e : Env4x2) (P : PolicyAdapter) (obs : Obs4) :
    Action2 × Env4x2 :=
  (P.eval e.weights obs, Env4x2.mk e.weights e.step_count (e.episode_count + 1))

/-- Modelled from the spec: `step(obs)` increments `step_count`, invokes
the policy adapter with current weights and `obs`, and returns the
action. -/
def Env4x2.step (e : Env4x2) (P : PolicyAdapter) (obs : Obs4) :
    Action2 × Env4x2 :=
  (P.eval e.weights obs, Env4x2.mk e.weights (e.step_count + 1) e.episode_count)

/-- Modelled from the spec: `get_state()` returns
`(step_count, episode_count)`, a pure read. -/
def Env4x2.get_state (e : Env4x2) : Nat × Nat := (e.step_count, e.episode_count)

/-- Modelled from the spec: `check_invariant(obs, action)` evaluates a
pure safety predicate over the pair; minimally it enforces
`action.is_within_bounds(domain_min, domain_max)`. The returned
environment component records that the instance is left untouched. -/
def Env4x2.check_invariant (e : Env4x2) (dmin dmax : ℚ) (obs : Obs4)
    (act : Action2) : Bool × Env4x2 :=
  (act.is_within_bounds dmin dmax, e)

/-- Modelled from the spec: `update_weights(weights)` atomically replaces
the stored weights iff the new blob validates, returning whether the swap
occurred; on rejection nothing changes. -/
def Env4x2.update_weights (e : Env4x2) (P : PolicyAdapter) (w : Weights) :
    Bool × Env4x2 :=
  if validateWeights P w then (true, Env4x2.mk w e.step_count e.episode_count)
  else (false, e)

/-- Modelled from the spec: `get_weights()` returns a copy of the current
weights blob. -/
def Env4x2.get_weights (e : Env4x2) : Weights := e.weights

/-- Modelled from the spec: `is_valid()` is true iff the instance holds
non-empty validated weights. -/
def Env4x2.is_valid (e : Env4x2) (P : PolicyAdapter) : Bool :=
  validateWeights P e.weights

/-- Modelled from the spec: copying an `Env4x2` duplicates weights and
both counters into a fully independent instance. -/
def Env4x2.copy (e : Env4x2) : Env4x2 :=
  Env4x2.mk e.weights e.step_count e.episode_count

/-- Default environment value used for out-of-range store lookups in the
object-identity model below. -/
def defaultEnv : Env4x2 := Env4x2.mk [] 0 0

/-- Store of live `Env4x2` instances, modelling C++ object identity: each
instance is a cell, mutation rewrites exactly one cell. -/
abbrev Store := List Env4x2

/-- Appends to the store a copy of the instance at index `i`; the copy
lives at index `s.length`. -/
def Store.copyFrom (s : Store) (i : Nat) : Store :=
  s ++ [(s.getD i defaultEnv).copy]

/-- Mutates the instance at index `i` in place by an arbitrary state
transformer, leaving every other cell untouched; every mutating
operation of the interface (`reset`, `step`, `update_weights`) has this
shape. -/
def Store.modifyAt (s : Store) (i : Nat) (f : Env4x2 → Env4x2) : Store :=
  s.set i (f (s.getD i defaultEnv))

/-- Performs `step` on the instance at index `i`, mutating that cell
in place and leaving every other cell untouched. -/
def Store.stepAt (s : Store) (P : PolicyAdapter) (i : Nat) (obs : Obs4) :
    Store :=
  s.set i ((s.getD i defaultEnv).step P obs).2

/-- Performs `reset` on the instance at index `i`, mutating that cell
in place and leaving every other cell untouched. -/
def Store.resetAt (s : Store) (P : PolicyAdapter) (i : Nat) (obs : Obs4) :
    Store :=
  s.set i ((s.getD i defaultEnv).reset P obs).2

/-- Performs `update_weights` on the instance at index `i`, mutating
that cell in place and leaving every other cell untouched. -/
def Store.updateAt (s : Store) (P : PolicyAdapter) (i : Nat) (w : Weights) :
    Store :=
  s.set i ((s.getD i defaultEnv).update_weights P w).2

/-- Reads `get_state` of the instance at index `i`. -/
def Store.stateAt (s : Store) (i : Nat) : Nat × Nat :=
  (s.getD i defaultEnv).get_state

/-- Reads `get_weights` of the instance at index `i`. -/
def Store.weightsAt (s : Store) (i : Nat) : Weights :=
  (s.getD i defaultEnv).get_weights

/-- Embedding of the header template `to_array<T, N>`: value-initializes
an `N`-element array (every slot zero) and copies the first
`min(vec.size(), N)` elements of the vector over its front. -/
def to_array {T : Type} [Zero T] (N : Nat) (v : List T) : List T :=
  v.take (min v.length N) ++ List.replicate (N - min v.length N) (0 : T)

/-- Embedding of the header template `to_vector<T, N>`: builds a vector
from the array elements in order. -/
def to_vector {T : Type} (arr : List T) : List T := arr

/-- Concrete policy adapter used to witness the universally quantified
theorems: a constant policy that accepts every blob. -/
def P0 : PolicyAdapter :=
  PolicyAdapter.mk (fun _ _ => Action2.mk 0 0) (fun _ => true)

/-- Concrete observation used by the witnesses. -/
def obs0 : Obs4 := Obs4.mk 1 2 3 4

/-- Helper: reading just past the end of an appended singleton yields the
appended element. -/
theorem getD_append_length {α : Type} (l : List α) (x d : α) :
    (l ++ [x]).getD l.length d = x := by
  induction l with
  | nil => rfl
  | cons a t ih => exact ih

/-- Helper: appending does not disturb reads at indices inside the
original list. -/
theorem getD_append_lt {α : Type} (l : List α) (x d : α) (i : Nat)
    (h : i < l.length) : (l ++ [x]).getD i d = l.getD i d := by
  induction l generalizing i with
  | nil => exact absurd h (Nat.not_lt_zero i)
  | cons a t ih =>
    cases i with
    | zero => rfl
    | succ i => exact ih i (Nat.lt_of_succ_lt_succ h)

/-- Helper: setting one cell does not disturb reads at a different
index. -/
theorem getD_set_ne {α : Type} (l : List α) (x d : α) (i j : Nat)
    (h : i ≠ j) : (l.set i x).getD j d = l.getD j d := by
  induction l generalizing i j with
  | nil => rfl
  | cons a t ih =>
    cases i with
    | zero =>
      cases j with
      | zero => exact absurd rfl h
      | succ j => rfl
    | succ i =>
      cases j with
      | zero => rfl
      | succ j => exact ih i j (fun hh => h (by omega))

/-- Helper: setting an in-range cell is observed by a read at the same
index. -/
theorem getD_set_self {α : Type} (l : List α) (x d : α) (i : Nat)
    (h : i < l.length) : (l.set i x).getD i d = x := by
  induction l generalizing i with
  | nil => exact absurd h (Nat.not_lt_zero i)
  | cons a t ih =>
    cases i with
    | zero => rfl
    | succ i => exact ih i (Nat.lt_of_succ_lt_succ h)

/-- C10: every failure surfaced through `LEANRL_ASSERT_OK` is the same
error: whenever the checked condition is false, a system error with code
-1 in the system category and message "LeanRL operation failed" results,
so distinct spec error kinds are indistinguishable through this channel;
when the condition is true nothing is thrown. -/
theorem assert_ok_single_error :
    (∀ c : Bool,
      LEANRL_ASSERT_OK c = Except.ok () ∨
      LEANRL_ASSERT_OK c =
        Except.error (SystemError.mk (-1) "system" "LeanRL operation failed")) ∧
    LEANRL_ASSERT_OK false =
      Except.error (SystemError.mk (-1) "system" "LeanRL operation failed") ∧
    LEANRL_ASSERT_OK true = Except.ok () := by
  refine ⟨fun c => ?_, rfl, rfl⟩
  cases c
  · exact Or.inr rfl
  · exact Or.inl rfl

/-- C9: `to_array` keeps the first `min(|v|, N)` elements of the vector
and zero-fills the rest of the `N`-element array; consequently an array
of length `N` round-trips through `to_vector` then `to_array`, and a
vector of length exactly `N` round-trips through `to_array` then
`to_vector`. -/
theorem to_array_spec {T : Type} [Zero T] (N : Nat) (u arr : List T)
    (harr : arr.length = N) :
    (to_array N u).take (min u.length N) = u.take (min u.length N) ∧
    (to_array N u).drop (min u.length N) =
      List.replicate (N - min u.length N) (0 : T) ∧
    (to_array N u).length = N ∧
    to_array N (to_vector arr) = arr ∧
    (u.length = N → to_vector (to_array N u) = u) := by
  have hmle : min u.length N ≤ u.length := Nat.min_le_left _ _
  have hmN : min u.length N ≤ N := Nat.min_le_right _ _
  have hlen : (u.take (min u.length N)).length = min u.length N := by
    simp [List.length_take, Nat.min_eq_left hmle]
  refine ⟨?_, ?_, ?_, ?_, ?_⟩
  · rw [to_array, List.take_left' hlen]
  · rw [to_array, List.drop_left' hlen]
  · simp [to_array, hlen, Nat.add_sub_cancel' hmN]
  · simp [to_array, to_vector, harr, List.take_of_length_le (Nat.le_of_eq harr)]
  · intro hu
    simp [to_array, to_vector, hu, List.take_of_length_le (Nat.le_of_eq hu)]

/-- Witness for C9 at a concrete type and concrete lists. -/
theorem to_array_spec_witness :
    (to_array 4 [(1 : Int), 2] ).take (min 2 4) = [1, 2] ∧
    to_array 4 (to_vector [(1 : Int), 2, 3, 4]) = [1, 2, 3, 4] := by
  have h := to_array_spec 4 [(1 : Int), 2] [1, 2, 3, 4] rfl
  exact ⟨by simpa using h.1, h.2.2.2.1⟩

/-- C8: scalar multiplication of an `Action2` is commutative, and both
forms scale every component by the scalar. -/
theorem smul_action2_comm (s : ℚ) (a : Action2) :
    smulLeft s a = a.smulRight s ∧
    (smulLeft s a).c0 = s * a.c0 ∧ (smulLeft s a).c1 = s * a.c1 ∧
    (a.smulRight s).c0 = a.c0 * s ∧ (a.smulRight s).c1 = a.c1 * s := by
  refine ⟨?_, rfl, rfl, rfl, rfl⟩
  simp [smulLeft, Action2.smulRight, mul_comm]

/-- C6: `check_invariant` is pure: it leaves the instance (hence
`get_state`) unchanged, and a repeated call with identical arguments on
the unmodified instance returns the same boolean. -/
theorem check_invariant_pure (e : Env4x2) (dmin dmax : ℚ) (obs : Obs4)
    (act : Action2) :
    (e.check_invariant dmin dmax obs act).2 = e ∧
    (e.check_invariant dmin dmax obs act).2.get_state = e.get_state ∧
    ((e.check_invariant dmin dmax obs act).2.check_invariant dmin dmax obs act).1
      = (e.check_invariant dmin dmax obs act).1 :=
  ⟨rfl, rfl, rfl⟩

/-- C1: `reset` increments `episode_count` by exactly one and leaves
`step_count` unchanged (never zeroing it), `step` increments `step_count`
by exactly one and leaves `episode_count` unchanged, and from a freshly
constructed instance one `reset` followed by two `step` calls makes
`get_state` return `(2, 1)`. -/
theorem reset_step_counters (P : PolicyAdapter) (e : Env4x2)
    (obs obs2 obs3 : Obs4) :
    (e.reset P obs).2.episode_count = e.episode_count + 1 ∧
    (e.reset P obs).2.step_count = e.step_count ∧
    (e.step P obs).2.step_count = e.step_count + 1 ∧
    (e.step P obs).2.episode_count = e.episode_count ∧
    (∀ w e0, construct P w = Except.ok e0 →
      ((((e0.reset P obs).2.step P obs2).2.step P obs3).2.get_state = (2, 1))) := by
  refine ⟨rfl, rfl, rfl, rfl, fun w e0 h => ?_⟩
  rw [construct] at h
  by_cases hv : validateWeights P w = true
  · rw [if_pos hv] at h
    cases h
    rfl
  · rw [if_neg hv] at h
    cases h

/-- Witness for C1 at the concrete adapter, weights `[1]` and the fresh
instance the construction yields. -/
theorem reset_step_counters_witness :
    ((((Env4x2.mk [1] 0 0).reset P0 obs0).2.step P0 obs0).2.step P0 obs0).2.get_state
      = (2, 1) :=
  (reset_step_counters P0 (Env4x2.mk [1] 0 0) obs0 obs0 obs0).2.2.2.2
    [1] (Env4x2.mk [1] 0 0) rfl

/-- C2: constructing from an empty weight blob fails with
`InvalidWeights`; constructing from a non-empty blob the adapter accepts
succeeds with `is_valid() == true` and `get_state() == (0, 0)`. -/
theorem construct_validates (P : PolicyAdapter) (w : Weights)
    (hne : w ≠ []) (hacc : P.accepts w = true) :
    construct P [] = Except.error Err.InvalidWeights ∧
    ∃ e, construct P w = Except.ok e ∧
      e.is_valid P = true ∧ e.get_state = (0, 0) := by
  have hv : validateWeights P w = true := by
    simp [validateWeights, hacc, List.isEmpty_iff, hne]
  refine ⟨rfl, Env4x2.mk w 0 0, ?_, ?_, rfl⟩
  · rw [construct, if_pos hv]
  · simpa [Env4x2.is_valid] using hv

/-- Witness for C2 at the concrete adapter and weights `[1]`. -/
theorem construct_validates_witness :
    construct P0 [] = Except.error Err.InvalidWeights ∧
    ∃ e, construct P0 [1] = Except.ok e ∧
      e.is_valid P0 = true ∧ e.get_state = (0, 0) :=
  construct_validates P0 [1] (by decide) rfl

/-- C3: `update_weights` with a blob that fails validation returns false
and leaves `get_weights` and `get_state` exactly as before; with a blob
that validates it replaces the stored weights and returns true. -/
theorem update_weights_atomic (P : PolicyAdapter) (e : Env4x2) (w : Weights) :
    (validateWeights P w = false →
      (e.update_weights P w).1 = false ∧
      (e.update_weights P w).2.get_weights = e.get_weights ∧
      (e.update_weights P w).2.get_state = e.get_state) ∧
    (validateWeights P w = true →
      (e.update_weights P w).1 = true ∧
      (e.update_weights P w).2.get_weights = w ∧
      (e.update_weights P w).2.get_state = e.get_state) := by
  constructor
  · intro hv
    rw [Env4x2.update_weights, if_neg (by simp [hv])]
    exact ⟨rfl, rfl, rfl⟩
  · intro hv
    rw [Env4x2.update_weights, if_pos hv]
    exact ⟨rfl, rfl, rfl⟩

/-- Witness for C3: the empty blob is rejected without touching state,
and the blob `[7]` is accepted and swapped in. -/
theorem update_weights_atomic_witness :
    (((Env4x2.mk [1] 5 3).update_weights P0 []).1 = false ∧
      ((Env4x2.mk [1] 5 3).update_weights P0 []).2.get_weights = [1] ∧
      ((Env4x2.mk [1] 5 3).update_weights P0 []).2.get_state = (5, 3)) ∧
    (((Env4x2.mk [1] 5 3).update_weights P0 [7]).1 = true ∧
      ((Env4x2.mk [1] 5 3).update_weights P0 [7]).2.get_weights = [7] ∧
      ((Env4x2.mk [1] 5 3).update_weights P0 [7]).2.get_state = (5, 3)) :=
  ⟨(update_weights_atomic P0 (Env4x2.mk [1] 5 3) []).1 rfl,
   (update_weights_atomic P0 (Env4x2.mk [1] 5 3) [7]).2 rfl⟩

/-- C4: with ordered bounds, both components of `clamp(lo, hi)` lie in
`[lo, hi]`, and the clamped action passes `is_within_bounds(lo, hi)`. -/
theorem clamp_within_bounds (a : Action2) (lo hi : ℚ) (h : lo ≤ hi) :
    (lo ≤ (a.clamp lo hi).c0 ∧ (a.clamp lo hi).c0 ≤ hi) ∧
    (lo ≤ (a.clamp lo hi).c1 ∧ (a.clamp lo hi).c1 ≤ hi) ∧
    (a.clamp lo hi).is_within_bounds lo hi = true := by
  have h0lo : lo ≤ clampVal a.c0 lo hi :=
    le_min (le_max_right a.c0 lo) h
  have h0hi : clampVal a.c0 lo hi ≤ hi := min_le_right _ _
  have h1lo : lo ≤ clampVal a.c1 lo hi :=
    le_min (le_max_right a.c1 lo) h
  have h1hi : clampVal a.c1 lo hi ≤ hi := min_le_right _ _
  refine ⟨⟨h0lo, h0hi⟩, ⟨h1lo, h1hi⟩, ?_⟩
  simp [Action2.is_within_bounds, Action2.clamp]
  exact ⟨h0lo, h0hi, h1lo, h1hi⟩

/-- Witness for C4 at a concrete action whose components lie on both
sides of the bounds. -/
theorem clamp_within_bounds_witness :
    ((0 : ℚ) ≤ ((Action2.mk 5 (-3)).clamp 0 1).c0 ∧
      ((Action2.mk 5 (-3)).clamp 0 1).c0 ≤ 1) ∧
    ((0 : ℚ) ≤ ((Action2.mk 5 (-3)).clamp 0 1).c1 ∧
      ((Action2.mk 5 (-3)).clamp 0 1).c1 ≤ 1) ∧
    ((Action2.mk 5 (-3)).clamp 0 1).is_within_bounds 0 1 = true :=
  clamp_within_bounds (Action2.mk 5 (-3)) 0 1 (by norm_num)

/-- C5: indexed access outside `[0, N)` fails with `OutOfRange` for both
`Obs4` (N = 4) and `Action2` (N = 2), while every in-range index yields a
value. -/
theorem index_out_of_range (o : Obs4) (a : Action2) (i j : Nat)
    (hi : 4 ≤ i) (hj : 2 ≤ j) :
    o.get i = Except.error Err.OutOfRange ∧
    a.get j = Except.error Err.OutOfRange ∧
    (∀ k, k < 4 → ∃ x, o.get k = Except.ok x) ∧
    (∀ k, k < 2 → ∃ x, a.get k = Except.ok x) := by
  obtain ⟨n, rfl⟩ : ∃ n, i = n + 4 := ⟨i - 4, by omega⟩
  obtain ⟨m, rfl⟩ : ∃ m, j = m + 2 := ⟨j - 2, by omega⟩
  refine ⟨rfl, rfl, fun k hk => ?_, fun k hk => ?_⟩
  · interval_cases k
    · exact ⟨o.c0, rfl⟩
    · exact ⟨o.c1, rfl⟩
    · exact ⟨o.c2, rfl⟩
    · exact ⟨o.c3, rfl⟩
  · interval_cases k
    · exact ⟨a.c0, rfl⟩
    · exact ⟨a.c1, rfl⟩

/-- Witness for C5 at concrete values and the first out-of-range
indices. -/
theorem index_out_of_range_witness :
    obs0.get 4 = Except.error Err.OutOfRange ∧
    (Action2.mk 1 2).get 2 = Except.error Err.OutOfRange :=
  ⟨(index_out_of_range obs0 (Action2.mk 1 2) 4 2 (by decide) (by decide)).1,
   (index_out_of_range obs0 (Action2.mk 1 2) 4 2 (by decide) (by decide)).2.1⟩

/-- C7: copying an instance yields one with the same counters and
weights, and the two are fully independent: any mutating operation on
either cell of the store leaves both the `get_state` and the
`get_weights` of the other cell exactly as they were, where `step`,
`reset` and `update_weights` are all such mutations; moreover the
mutations are real, since the stepped cell advances its own step
counter and an accepted weight update swaps in the new blob. -/
theorem copy_independent (P : PolicyAdapter) (s : Store) (i : Nat)
    (obs : Obs4) (w : Weights) (hi : i < s.length) :
    Store.stateAt (s.copyFrom i) s.length = Store.stateAt s i ∧
    Store.weightsAt (s.copyFrom i) s.length = Store.weightsAt s i ∧
    (∀ f : Env4x2 → Env4x2,
      Store.stateAt ((s.copyFrom i).modifyAt s.length f) i
        = Store.stateAt (s.copyFrom i) i ∧
      Store.weightsAt ((s.copyFrom i).modifyAt s.length f) i
        = Store.weightsAt (s.copyFrom i) i ∧
      Store.stateAt ((s.copyFrom i).modifyAt i f) s.length
        = Store.stateAt (s.copyFrom i) s.length ∧
      Store.weightsAt ((s.copyFrom i).modifyAt i f) s.length
        = Store.weightsAt (s.copyFrom i) s.length) ∧
    (∀ (t : Store) (j : Nat),
      t.stepAt P j obs = t.modifyAt j (fun e => (e.step P obs).2) ∧
      t.resetAt P j obs = t.modifyAt j (fun e => (e.reset P obs).2) ∧
      t.updateAt P j w = t.modifyAt j (fun e => (e.update_weights P w).2)) ∧
    (Store.stateAt ((s.copyFrom i).stepAt P s.length obs) s.length).1
      = (Store.stateAt (s.copyFrom i) s.length).1 + 1 ∧
    (validateWeights P w = true →
      Store.weightsAt ((s.copyFrom i).updateAt P s.length w) s.length = w) := by
  have hne : i ≠ s.length := Nat.ne_of_lt hi
  have hcopy : (s.copyFrom i).getD s.length defaultEnv
      = (s.getD i defaultEnv).copy :=
    getD_append_length s _ defaultEnv
  have hlen2 : s.length < (s.copyFrom i).length := by
    simp [Store.copyFrom]
  refine ⟨?_, ?_, fun f => ⟨?_, ?_, ?_, ?_⟩, fun t j => ⟨rfl, rfl, rfl⟩, ?_, ?_⟩
  · rw [Store.stateAt, hcopy]
    rfl
  · rw [Store.weightsAt, hcopy]
    rfl
  · rw [Store.stateAt, Store.modifyAt,
      getD_set_ne _ _ _ _ _ (fun hh => hne hh.symm)]
    rfl
  · rw [Store.weightsAt, Store.modifyAt,
      getD_set_ne _ _ _ _ _ (fun hh => hne hh.symm)]
    rfl
  · rw [Store.stateAt, Store.modifyAt, getD_set_ne _ _ _ _ _ hne]
    rfl
  · rw [Store.weightsAt, Store.modifyAt, getD_set_ne _ _ _ _ _ hne]
    rfl
  · rw [Store.stateAt, Store.stepAt, getD_set_self _ _ _ _ hlen2]
    rfl
  · intro hv
    rw [Store.weightsAt, Store.updateAt, getD_set_self _ _ _ _ hlen2,
      Env4x2.update_weights, if_pos hv]
    rfl

/-- Witness for C7 on a one-element store holding a concrete instance:
the copy at index 1 starts identical, a weight update and a step on the
copy leave the state and weights of the original at index 0 untouched,
a weight update on the original leaves the weights of the copy
untouched, and both mutations really happen on their own cell. -/
theorem copy_independent_witness :
    Store.stateAt (Store.copyFrom [Env4x2.mk [1] 5 3] 0) 1 = (5, 3) ∧
    Store.weightsAt (Store.copyFrom [Env4x2.mk [1] 5 3] 0) 1 = [1] ∧
    Store.stateAt ((Store.copyFrom [Env4x2.mk [1] 5 3] 0).stepAt P0 1 obs0) 0
      = (5, 3) ∧
    Store.weightsAt
      ((Store.copyFrom [Env4x2.mk [1] 5 3] 0).updateAt P0 1 [9]) 0 = [1] ∧
    Store.stateAt
      ((Store.copyFrom [Env4x2.mk [1] 5 3] 0).updateAt P0 1 [9]) 0 = (5, 3) ∧
    Store.weightsAt
      ((Store.copyFrom [Env4x2.mk [1] 5 3] 0).updateAt P0 0 [9]) 1 = [1] ∧
    (Store.stateAt ((Store.copyFrom [Env4x2.mk [1] 5 3] 0).stepAt P0 1 obs0) 1).1
      = 6 ∧
    Store.weightsAt
      ((Store.copyFrom [Env4x2.mk [1] 5 3] 0).updateAt P0 1 [9]) 1 = [9] := by
  have h := copy_independent P0 [Env4x2.mk [1] 5 3] 0 obs0 [9] (by decide)
  simp only [List.length_cons, List.length_nil, Nat.zero_add] at h
  obtain ⟨h1, h2, hf, hinst, hstep, hupd⟩ := h
  refine ⟨h1, h2, ?_, ?_, ?_, ?_, ?_, hupd rfl⟩
  · rw [(hinst _ 1).1, (hf _).1]
    rfl
  · rw [(hinst _ 1).2.2, (hf _).2.1]
    rfl
  · rw [(hinst _ 1).2.2, (hf _).1]
    rfl
  · rw [(hinst _ 0).2.2, (hf _).2.2.2, h2]
    rfl
  · rw [hstep, h1]
    rfl

end LeanRL
